import Mathlib

/-!
Shallow embedding of `src/main.py` (nimt_notice_monitor plugin, class
`NJIMTNoticeMonitor`) together with theorems checking the natural-language
specification against it.

Stateful code (the sqlite tables) is embedded as explicit state passing over
lists of rows; network responses are passed in as explicit environment values;
the MD5 digest (`hashlib.md5(...).hexdigest()`) is abstracted as an explicit
function argument `md5hex : String → String`, applied to exactly the string
the source hashes.
-/

namespace NimtMonitor

/-- Naive substring search on character lists, modelling the Python operator
`needle in haystack` on strings. -/
def listHasInfix (hay needle : List Char) : Bool :=
  match hay with
  | [] => needle.isEmpty
  | _ :: rest => needle.isPrefixOf hay || listHasInfix rest needle

/-- Substring test on strings, modelling Python `needle in haystack`. -/
def strContainsSub (hay needle : String) : Bool :=
  listHasInfix hay.toList needle.toList

/-! ## Date extraction and normalization (`parse_notices`, lines 452-464)

The source searches each sibling element's text with `re.search` for the
pattern: four digits, a separator in '-', '/', '年', one or two digits, a
separator in '-', '/', '月', one or two digits, an optional '日'; it applies
`re.sub(r'[年月]', '-', ...)`, `re.sub(r'[日]', '', ...)`,
`re.sub(r'/', '-', ...)` to the matched substring. -/

/-- Character class of the year separator ('-', '/', '年') in the date regex. -/
def isSepYM (c : Char) : Bool := c = '-' || c = '/' || c = '年'

/-- Character class of the month separator ('-', '/', '月') in the date regex. -/
def isSepMD (c : Char) : Bool := c = '-' || c = '/' || c = '月'

/-- Matches the regex tail `\d{1,2}[日]?` greedily at the head of the list,
returning the matched characters. -/
def matchDayPart : List Char → Option (List Char)
  | a :: b :: rest =>
    if a.isDigit && b.isDigit then
      some (a :: b :: (match rest with | '日' :: _ => ['日'] | _ => []))
    else if a.isDigit then
      some (a :: (match b :: rest with | '日' :: _ => ['日'] | _ => []))
    else none
  | [a] => if a.isDigit then some [a] else none
  | [] => none

/-- Matches the regex tail: one or two digits, a month separator, one or two
digits, an optional '日', at the head of the list.  Digits and separators are disjoint character classes, so the greedy
`\d{1,2}` never needs to backtrack from two digits to one. -/
def matchMonthDayPart : List Char → Option (List Char)
  | a :: b :: rest =>
    if a.isDigit && b.isDigit then
      match rest with
      | s :: rest2 =>
        if isSepMD s then (matchDayPart rest2).map (fun m => a :: b :: s :: m)
        else none
      | [] => none
    else if a.isDigit && isSepMD b then
      (matchDayPart rest).map (fun m => a :: b :: m)
    else none
  | _ => none

/-- Matches the whole date regex (four digits, year separator, one or two
digits, month separator, one or two digits, optional '日') at the head of the
list. -/
def matchDateAt : List Char → Option (List Char)
  | a :: b :: c :: d :: s :: rest =>
    if a.isDigit && b.isDigit && c.isDigit && d.isDigit && isSepYM s then
      (matchMonthDayPart rest).map (fun m => a :: b :: c :: d :: s :: m)
    else none
  | _ => none

/-- Leftmost match of the date regex in a character list, modelling
`re.search` (earliest starting position wins). -/
def findDateMatch : List Char → Option (List Char)
  | [] => none
  | c :: rest =>
    match matchDateAt (c :: rest) with
    | some m => some m
    | none => findDateMatch rest

/-- Models `re.sub(r'[年月]', '-', date_str)`. -/
def subYearMonth (s : String) : String :=
  String.mk (s.toList.map (fun c => if c = '年' || c = '月' then '-' else c))

/-- Models `re.sub(r'[日]', '', date_str)`. -/
def subDayChar (s : String) : String :=
  String.mk (s.toList.filter (fun c => !(c = '日')))

/-- Models `re.sub(r'/', '-', date_str)`. -/
def subSlash (s : String) : String :=
  String.mk (s.toList.map (fun c => if c = '/' then '-' else c))

/-- The three-step separator normalization applied by `parse_notices` to a
matched date string, in source order. -/
def normalizeDateStr (s : String) : String :=
  subSlash (subDayChar (subYearMonth s))

/-- Date extraction of `parse_notices` on one text node: the first regex match
is normalized; `none` when the text holds no date (the source then keeps the
default, today's date). -/
def extractPublishDate (text : String) : Option String :=
  (findDateMatch text.toList).map (fun m => normalizeDateStr (String.mk m))

/-! ## Section-time table (`get_section_time`, lines 1097-1113) and its use in
`parse_course_table` (lines 1074-1075) -/

/-- One value of the `time_mapping` dictionary in `get_section_time`. -/
structure SectionTime where
  start_time : String
  end_time : String
  period : String
deriving DecidableEq, Repr

/-- The fixed `time_mapping` dictionary of `get_section_time`: section code →
display times. -/
def time_mapping : List (String × SectionTime) :=
  [ ("1", ⟨"08:00", "08:45", "第1节"⟩),
    ("2", ⟨"08:50", "09:35", "第2节"⟩),
    ("3", ⟨"09:50", "10:35", "第3节"⟩),
    ("4", ⟨"10:40", "11:25", "第4节"⟩),
    ("5", ⟨"13:30", "14:15", "第5节"⟩),
    ("6", ⟨"14:20", "15:05", "第6节"⟩),
    ("7", ⟨"15:20", "16:05", "第7节"⟩),
    ("8", ⟨"16:10", "16:55", "第8节"⟩),
    ("9", ⟨"18:30", "19:15", "第9节"⟩),
    ("10", ⟨"19:20", "20:05", "第10节"⟩),
    ("11", ⟨"20:10", "20:55", "第11节"⟩) ]

/-- Models `time_mapping.get(section_code, {})`: `none` stands for the empty
dictionary returned for an unknown code. -/
def get_section_time (code : String) : Option SectionTime :=
  (time_mapping.find? (fun p => p.1 = code)).map (fun p => p.2)

/-- Start time a normalized course record gets, per `parse_course_table`:
`time_info.get("start_time") if time_info else ""`. -/
def sectionStartTime (code : String) : String :=
  match get_section_time code with
  | some t => t.start_time
  | none => ""

/-- End time a normalized course record gets, per `parse_course_table`:
`time_info.get("end_time") if time_info else ""`. -/
def sectionEndTime (code : String) : String :=
  match get_section_time code with
  | some t => t.end_time
  | none => ""

/-! ## View-notices count clamp (`cmd_view_notices`, lines 1447-1462) -/

/-- The clamp `cmd_view_notices` applies to a supplied `count` argument:
`if count < 1: count = 1` then `if count > 50: count = 50`.  Python integers
are unbounded, so the argument is an `Int`. -/
def viewNoticesCount (count : Int) : Int :=
  let c1 := if count < 1 then 1 else count
  if c1 > 50 then 50 else c1

/-- The rows returned by the `LIMIT ?` query of `cmd_view_notices` when a
count is supplied, over the stored rows in query order. -/
def viewNoticesFetch {α : Type} (count : Int) (rows : List α) : List α :=
  rows.take (viewNoticesCount count).toNat

/-! ## Notice candidates and the notices table
(`parse_notices` lines 466-476, `check_site_notices` lines 488-514,
`send_notice_push` lines 554-561) -/

/-- One row of the `notices` table (schema lines 186-197).  `created_at` is
`CURRENT_TIMESTAMP` noise and not part of any claim; the remaining columns are
kept.  `notified_at` is `NULL` until the first push. -/
structure NoticeRow where
  id : String
  site_id : String
  title : String
  url : String
  publish_date : String
  notified : Bool
  notified_at : Option String
deriving DecidableEq, Repr

/-- One dictionary appended to `notices` by `parse_notices`. -/
structure NoticeCandidate where
  id : String
  site_id : String
  site_name : String
  title : String
  url : String
  publish_date : String
  remark : String
deriving DecidableEq, Repr

/-- Builds the candidate dictionary of `parse_notices`:
`notice_id = hashlib.md5(f"{site_config['id']}_{url}".encode()).hexdigest()`,
with the digest abstracted as `md5hex`. -/
def mkNoticeCandidate (md5hex : String → String)
    (siteId siteName title url publishDate remark : String) : NoticeCandidate :=
  { id := md5hex (siteId ++ "_" ++ url)
    site_id := siteId
    site_name := siteName
    title := title
    url := url
    publish_date := publishDate
    remark := remark }

/-- The row inserted by `check_site_notices`:
`INSERT INTO notices (id, site_id, title, url, publish_date)`; `notified`
defaults to 0 and `notified_at` to `NULL`. -/
def insertNoticeRow (c : NoticeCandidate) : NoticeRow :=
  { id := c.id, site_id := c.site_id, title := c.title, url := c.url
    publish_date := c.publish_date, notified := false, notified_at := none }

/-- Models `SELECT id FROM notices WHERE id = ?` followed by `fetchone()`:
whether a row with the given id exists. -/
def noticeIdPresent (db : List NoticeRow) (i : String) : Bool :=
  db.any (fun r => r.id = i)

/-- The per-candidate loop of `check_site_notices` over the parsed list:
each candidate whose id is absent is inserted (appended) and collected into
`new_notices`; candidates whose id is present are skipped.  Returns
`(new_notices, final table)`. -/
def check_site_notices :
    List NoticeCandidate → List NoticeRow → List NoticeCandidate × List NoticeRow
  | [], db => ([], db)
  | c :: rest, db =>
    if noticeIdPresent db c.id then check_site_notices rest db
    else
      let p := check_site_notices rest (db ++ [insertNoticeRow c])
      (c :: p.1, p.2)

/-- The `UPDATE notices SET notified = 1, notified_at = CURRENT_TIMESTAMP
WHERE id = ?` statement of `send_notice_push`; `now` is the value
`CURRENT_TIMESTAMP` evaluates to. -/
def markNotified (now : String) (i : String) (db : List NoticeRow) : List NoticeRow :=
  db.map (fun r =>
    if r.id = i then { r with notified := true, notified_at := some now } else r)

/-! ## Course records and the course_schedules table
(`parse_course_table` lines 1011-1095, `save_courses_to_db` lines 1115-1153,
`update_course_table_with_cookies` lines 1216-1244,
`check_course_changes_task` lines 1398-1432) -/

/-- One row of `course_schedules`, with exactly the columns of the `INSERT`
in `save_courses_to_db` (the autoincrement id and the two timestamp columns
carry no claim content). -/
structure CourseRow where
  student_id : String
  academic_year : String
  week : Int
  day_of_week : Int
  section_code : String
  section_name : String
  start_time : String
  end_time : String
  course_name : String
  course_short : String
  teacher : String
  classroom : String
  building : String
  room_number : String
  course_type : String
  hours : Int
  is_practice : Bool
  week_range : String
  course_hash : String
deriving DecidableEq, Repr

/-- The `DELETE ... WHERE student_id = ? AND academic_year = ? AND week = ?`
key test of `save_courses_to_db`. -/
def courseKeyMatches (sid ay : String) (w : Int) (r : CourseRow) : Bool :=
  r.student_id = sid && r.academic_year = ay && r.week = w

/-- The five columns of the `course_schedules` UNIQUE constraint
(schema line 255): (student_id, academic_year, week, day_of_week,
section_code). -/
def courseSlotId (r : CourseRow) : String × String × Int × Int × String :=
  (r.student_id, r.academic_year, r.week, r.day_of_week, r.section_code)

/-- The (day_of_week, section_code) slot of a record. -/
def courseSlot (r : CourseRow) : Int × String :=
  (r.day_of_week, r.section_code)

/-- Whether inserting `c` into the table state `acc` violates the
`UNIQUE(student_id, academic_year, week, day_of_week, section_code)`
constraint of `course_schedules`, which makes sqlite raise
`IntegrityError`. -/
def uniqueViolation (acc : List CourseRow) (c : CourseRow) : Bool :=
  acc.any (fun r => courseSlotId r = courseSlotId c)

/-- The insert loop of `save_courses_to_db`: rows are inserted one at a
time into the current table state; the first UNIQUE violation raises, and
the surrounding `except` catches it before `conn.commit()` is reached —
`none` marks that aborted, uncommitted transaction. -/
def insertCourseRows : List CourseRow → List CourseRow → Option (List CourseRow)
  | [], acc => some acc
  | c :: rest, acc =>
    if uniqueViolation acc c then none
    else insertCourseRows rest (acc ++ [c])

/-- Models `save_courses_to_db`: one transaction that deletes every stored
row of the (student_id, academic_year, week) key and inserts the new rows in
order, committing at the end; an `IntegrityError` on a duplicate insert is
caught, the commit is skipped, and the whole uncommitted transaction rolls
back, leaving the table as it was. -/
def save_courses_to_db (db : List CourseRow) (courses : List CourseRow)
    (sid ay : String) (w : Int) : List CourseRow :=
  match insertCourseRows courses (db.filter (fun r => !courseKeyMatches sid ay w r)) with
  | some newdb => newdb
  | none => db

/-- One row of the `course_changes` table (schema lines 263-276). -/
structure ChangeRow where
  student_id : String
  course_code : String
  change_type : String
  old_data : String
  new_data : String
  change_date : String
  notified : Bool
deriving DecidableEq, Repr

/-- The two jwc tables a course-change check can touch. -/
structure JwcDb where
  course_schedules : List CourseRow
  course_changes : List ChangeRow
deriving DecidableEq, Repr

/-- The database effect of `update_course_table_with_cookies` on a successful
fetch, as run per user by `check_course_changes_task`: it calls
`save_courses_to_db` with the fetched week's records and touches nothing
else — in particular no statement anywhere in the source writes to
`course_changes`. -/
def update_course_table (db : JwcDb) (sid ay : String) (w : Int)
    (fetched : List CourseRow) : JwcDb :=
  { course_schedules := save_courses_to_db db.course_schedules fetched sid ay w
    course_changes := db.course_changes }

/-- A change event as described by the spec, identified by its kind and slot. -/
structure SpecChangeEvent where
  change_type : String
  day_of_week : Int
  section_code : String
deriving DecidableEq, Repr

/-- Whether a snapshot holds a record in the given slot. -/
def slotPresent (rs : List CourseRow) (d : Int) (sec : String) : Bool :=
  rs.any (fun r => r.day_of_week = d && r.section_code = sec)

/-- The content hash a snapshot stores for a slot, when present. -/
def slotHash (rs : List CourseRow) (d : Int) (sec : String) : Option String :=
  (rs.find? (fun r => r.day_of_week = d && r.section_code = sec)).map
    (fun r => r.course_hash)

/-- Modelled from the spec: the `reconcile` change detector is absent from the
source (`check_course_changes_task` performs no comparison), so this follows
the spec words — compare the new record set against the previous stored set
slot-by-slot on (day_of_week, section_code); a slot present before and absent
now, absent before and present now, or present in both with a different
content_hash each produces one event; unchanged slots produce none. -/
def reconcile_spec (old new : List CourseRow) : List SpecChangeEvent :=
  (old.filter (fun r => !slotPresent new r.day_of_week r.section_code)).map
      (fun r => ⟨"removed", r.day_of_week, r.section_code⟩)
    ++ (new.filter (fun r => !slotPresent old r.day_of_week r.section_code)).map
      (fun r => ⟨"added", r.day_of_week, r.section_code⟩)
    ++ (new.filter (fun r =>
          slotPresent old r.day_of_week r.section_code &&
          !(slotHash old r.day_of_week r.section_code == some r.course_hash))).map
      (fun r => ⟨"modified", r.day_of_week, r.section_code⟩)

/-! ## Credential encoding and the login flow
(`rsa_encrypt_password` lines 336-350, `login_jwc_rsa` lines 695-777,
`login_jwc_direct` lines 779-858, `login_jwc` lines 860-883) -/

/-- The base64 alphabet used by `base64.b64encode`. -/
def base64Alphabet : String :=
  "ABCDEFGHIJKLMNOPQRSTUVWXYZabcdefghijklmnopqrstuvwxyz0123456789+/"

/-- The base64 digit for a 6-bit value. -/
def b64Digit (n : Nat) : Char := base64Alphabet.toList.getD n 'A'

/-- Standard base64 of a byte list (bytes as `Nat` below 256), with `=`
padding, as produced by `base64.b64encode`. -/
def b64encodeBytes : List Nat → List Char
  | [] => []
  | [a] => [b64Digit (a / 4), b64Digit (a % 4 * 16), '=', '=']
  | [a, b] => [b64Digit (a / 4), b64Digit (a % 4 * 16 + b / 16),
      b64Digit (b % 16 * 4), '=']
  | a :: b :: c :: rest =>
    b64Digit (a / 4) :: b64Digit (a % 4 * 16 + b / 16) ::
      b64Digit (b % 16 * 4 + c / 64) :: b64Digit (c % 64) :: b64encodeBytes rest

/-- The UTF-8 bytes of a string, modelling Python `s.encode()`. -/
def utf8Bytes (s : String) : List Nat :=
  s.data.flatMap (fun c => (String.utf8EncodeChar c).map (fun x => x.toNat))

/-- Models `base64.b64encode(s.encode()).decode()`: base64 of the UTF-8
bytes of a string. -/
def b64encode (s : String) : String :=
  String.mk (b64encodeBytes (utf8Bytes s))

/-- Models `rsa_encrypt_password`: RSA-encrypt-then-base64 when the `rsa`
library is importable and encryption succeeds, else fall back to returning
the base64 encoding of the plaintext password.  The RSA step is abstracted as
`rsaEnc` (its output is already the base64-encoded ciphertext). -/
def rsa_encrypt_password (rsaAvailable : Bool) (rsaEnc : String → String)
    (password : String) : String :=
  if rsaAvailable then rsaEnc password else b64encode password

/-- The outcome dictionary of a login function: `{"success": ..,
"cookies": .., "error"/"message": ..}`. -/
structure LoginResult where
  success : Bool
  cookies : List (String × String)
  message : String
deriving DecidableEq, Repr

/-- The portal responses `login_jwc_rsa` reacts to: the status and cookie jar
of the login POST (`allow_redirects=False`), whether the body parsed as a
string, the body text, and the status of the follow-up `GET /admin/main`
probe issued when a 302 carried no key cookie. -/
structure RsaLoginEnv where
  status : Nat
  cookies : List (String × String)
  dataIsStr : Bool
  dataText : String
  probeStatus : Nat
deriving Repr

/-- The session cookie names `login_jwc_rsa` treats as signalling success:
`['username', 'puid', 'jw_uf']`. -/
def keySessionCookies : List String := ["username", "puid", "jw_uf"]

/-- Whether the cookie jar holds one of the key session cookies, modelling
`any(key in cookies for key in ['username', 'puid', 'jw_uf'])`. -/
def hasKeySessionCookie (cs : List (String × String)) : Bool :=
  cs.any (fun p => keySessionCookies.contains p.1)

/-- Models the decision logic of `login_jwc_rsa` after the login POST:
on 302, success if the jar is non-empty and holds a key cookie, else success
exactly when the `/admin/main` probe answers 200; on 200, the body is
scanned for the credential-error and captcha substrings; any other status is
a failure. -/
def login_jwc_rsa (e : RsaLoginEnv) : LoginResult :=
  if e.status = 302 then
    if !e.cookies.isEmpty && hasKeySessionCookie e.cookies then
      ⟨true, e.cookies, "登录成功"⟩
    else if e.probeStatus = 200 then
      ⟨true, e.cookies, "登录成功"⟩
    else
      ⟨false, [], "登录失败：未获得有效会话"⟩
  else if e.status = 200 then
    if e.dataIsStr then
      if strContainsSub e.dataText "账号或密码错误" then ⟨false, [], "账号或密码错误"⟩
      else if strContainsSub e.dataText "验证码" then ⟨false, [], "需要验证码，请稍后再试"⟩
      else ⟨false, [], "登录失败，服务器返回"⟩
    else ⟨false, [], "登录失败：未知错误"⟩
  else ⟨false, [], "登录失败: 状态码"⟩

/-- The portal responses `login_jwc_direct` reacts to: status and cookie jar
of the login POST, the `location` response header, and the body text. -/
structure DirectLoginEnv where
  status : Nat
  cookies : List (String × String)
  location : String
  bodyText : String
deriving Repr

/-- Models the decision logic of `login_jwc_direct`: on 302, success exactly
when the redirect `location` contains `"main.html"` or `"admin"` — the cookie
jar is never consulted; on 200, the body is scanned for the credential-error
substring; any other status is a failure. -/
def login_jwc_direct (e : DirectLoginEnv) : LoginResult :=
  if e.status = 302 then
    if strContainsSub e.location "main.html" || strContainsSub e.location "admin" then
      ⟨true, e.cookies, "登录成功"⟩
    else ⟨false, [], "登录失败，重定向到"⟩
  else if e.status = 200 then
    if strContainsSub e.bodyText "账号或密码错误" then ⟨false, [], "账号或密码错误"⟩
    else ⟨false, [], "登录失败，未知原因"⟩
  else ⟨false, [], "登录失败，状态码"⟩

/-- Models `login_jwc`, returning the final result together with the list of
`password` form-field values transmitted on the wire, in order.  When
`use_rsa_encryption` is set, `login_jwc_rsa` POSTs `rsa_encrypt_password`'s
output; on any failure of that attempt `login_jwc_direct` is called, which
POSTs the plaintext password; no other configuration is consulted. -/
def login_jwc (useRsa : Bool) (rsaAvailable : Bool) (rsaEnc : String → String)
    (password : String) (eRsa : RsaLoginEnv) (eDir : DirectLoginEnv) :
    LoginResult × List String :=
  if useRsa then
    let sent := rsa_encrypt_password rsaAvailable rsaEnc password
    let r := login_jwc_rsa eRsa
    if r.success then (r, [sent])
    else
      let r2 := login_jwc_direct eDir
      if r2.success then (r2, [sent, password])
      else (⟨false, [], r2.message⟩, [sent, password])
  else
    let r2 := login_jwc_direct eDir
    if r2.success then (r2, [password])
    else (⟨false, [], r2.message⟩, [password])

/-! ## Concrete inputs used by witnesses and counterexamples -/

/-- Builds a course row the way `parse_course_table` fills the fields, for
concrete test snapshots. -/
def mkCourseRow (sid ay : String) (w day : Int) (sec nm hash : String) : CourseRow :=
  { student_id := sid, academic_year := ay, week := w, day_of_week := day
    section_code := sec, section_name := "第" ++ sec ++ "节"
    start_time := sectionStartTime sec, end_time := sectionEndTime sec
    course_name := nm, course_short := nm, teacher := "T", classroom := "A楼101"
    building := "A楼", room_number := "101", course_type := "理论", hours := 32
    is_practice := false, week_range := "", course_hash := hash }

/-- Stored snapshot A of the change-detection scenario:
slot1 at hashX, slot2 at hashY. -/
def snapA : List CourseRow :=
  [ mkCourseRow "2023001" "2024-2025-1" 5 1 "1" "Math" "hashX",
    mkCourseRow "2023001" "2024-2025-1" 5 1 "2" "Phys" "hashY" ]

/-- Fetched snapshot B of the change-detection scenario:
slot1 at hashX, slot2 at hashZ, slot3 at hashW. -/
def snapB : List CourseRow :=
  [ mkCourseRow "2023001" "2024-2025-1" 5 1 "1" "Math" "hashX",
    mkCourseRow "2023001" "2024-2025-1" 5 1 "2" "Phys2" "hashZ",
    mkCourseRow "2023001" "2024-2025-1" 5 1 "3" "Chem" "hashW" ]

/-- A stored notices table with one row of id "i1". -/
def wNoticeDb : List NoticeRow :=
  [⟨"i1", "s1", "old title", "u1", "2024-01-01", false, none⟩]

/-- Two candidates: one whose id is already stored, one new. -/
def wCandidates : List NoticeCandidate :=
  [ ⟨"i1", "s1", "site", "re-rendered title", "u1", "2024-02-02", ""⟩,
    ⟨"i2", "s1", "site", "fresh title", "u2", "2024-02-03", ""⟩ ]

/-- A candidate appearing twice in one extracted stream. -/
def dupCandidate : NoticeCandidate :=
  ⟨"i9", "s1", "site", "twice-listed", "u9", "2024-02-02", ""⟩

/-- A stored course table spanning two students and two weeks. -/
def wCourseDb : List CourseRow :=
  [ mkCourseRow "stu1" "2024-2025-1" 5 1 "1" "Math" "h1",
    mkCourseRow "stu2" "2024-2025-1" 5 1 "1" "Phys" "h2",
    mkCourseRow "stu1" "2024-2025-1" 6 2 "3" "Chem" "h3" ]

/-- A replacement week of courses for stu1, week 5. -/
def wCourseNew : List CourseRow :=
  [mkCourseRow "stu1" "2024-2025-1" 5 2 "5" "English" "h4"]

/-- A fetched week for stu1, week 5, that repeats one (day, section) slot —
as `parse_course_table` emits when one timetable cell's `kcxx` list holds
two courses. -/
def wCourseDup : List CourseRow :=
  [ mkCourseRow "stu1" "2024-2025-1" 5 2 "5" "English" "h4",
    mkCourseRow "stu1" "2024-2025-1" 5 2 "5" "History" "h5" ]

/-- A not-yet-notified stored notice. -/
def wNoticeRow : NoticeRow := ⟨"n1", "s1", "t", "u", "2024-01-01", false, none⟩

/-! ## Theorems -/

/-- C1: the spec's reconcile yields exactly the two events (slot3 added,
slot2 modified) from snapshot A to B and none from A to A, but the code's
change-check task, which only replaces the stored week via
`save_courses_to_db`, appends nothing to `course_changes`: zero change
events are produced on the very input where the claim requires two. -/
theorem change_detection_missing :
    (update_course_table ⟨snapA, []⟩ "2023001" "2024-2025-1" 5 snapB).course_changes = []
    ∧ (update_course_table ⟨snapA, []⟩ "2023001" "2024-2025-1" 5 snapB).course_schedules = snapB
    ∧ reconcile_spec snapA snapB = [⟨"added", 1, "3"⟩, ⟨"modified", 1, "2"⟩]
    ∧ reconcile_spec snapA snapA = [] := by
  decide

/-- C4 counterexample: the extractor does not zero-pad, so "2024年3月5日"
is not normalized to "2024-03-05". -/
theorem date_normalization_counterexample :
    extractPublishDate "2024年3月5日" ≠ some "2024-03-05" := by
  decide

/-- C4 (amended): separators are normalized to '-' and '日' is dropped, but
digit groups are kept verbatim, so "2024年3月5日" and "2024/3/5" normalize to
"2024-3-5" while "2024-03-05" maps to itself. -/
theorem date_normalization_values :
    extractPublishDate "2024年3月5日" = some "2024-3-5"
    ∧ extractPublishDate "2024/3/5" = some "2024-3-5"
    ∧ extractPublishDate "2024-03-05" = some "2024-03-05" := by
  refine ⟨by decide, by decide, by decide⟩

/-- C6: the notice id is the digest of `site_id ++ "_" ++ url` and nothing
else: it is a pure function of (site_id, url), so repeated extraction yields
the same id and the title (and publish date, remark) never enters it. -/
theorem notice_identity_deterministic (f : String → String)
    (siteId siteName url t1 t2 d1 d2 r1 r2 : String) :
    (mkNoticeCandidate f siteId siteName t1 url d1 r1).id = f (siteId ++ "_" ++ url)
    ∧ (mkNoticeCandidate f siteId siteName t1 url d1 r1).id
        = (mkNoticeCandidate f siteId siteName t2 url d2 r2).id :=
  ⟨rfl, rfl⟩

/-- C9: the section-time table has exactly 11 entries; every code in the
table looks up to its entry, and every code outside it yields `none` (the
empty dictionary), which the timetable normalizer turns into empty start and
end times — never an error. -/
theorem get_section_time_total :
    time_mapping.length = 11
    ∧ (∀ c t, (c, t) ∈ time_mapping → get_section_time c = some t)
    ∧ ∀ c, time_mapping.all (fun p => !(p.1 = c)) = true →
        get_section_time c = none ∧ sectionStartTime c = "" ∧ sectionEndTime c = "" := by
  refine ⟨rfl, ?_, ?_⟩
  · intro c t hm
    fin_cases hm <;> rfl
  · intro c hc
    have hnone : time_mapping.find? (fun p => p.1 = c) = none := by
      rw [List.find?_eq_none]
      intro x hx
      have hx2 := List.all_eq_true.mp hc x hx
      simpa using hx2
    simp [get_section_time, sectionStartTime, sectionEndTime, hnone]

/-- C9 witness: code "1" maps to its table entry; the out-of-table code "12"
yields the empty lookup and empty display times. -/
theorem get_section_time_total_witness :
    get_section_time "1" = some ⟨"08:00", "08:45", "第1节"⟩
    ∧ get_section_time "12" = none
    ∧ sectionStartTime "12" = "" ∧ sectionEndTime "12" = "" := by
  have h := get_section_time_total
  exact ⟨h.2.1 "1" ⟨"08:00", "08:45", "第1节"⟩ (by decide),
    (h.2.2 "12" (by decide)).1, (h.2.2 "12" (by decide)).2.1,
    (h.2.2 "12" (by decide)).2.2⟩

/-- C10: the supplied view-notices count is clamped into [1, 50] (below 1
behaves as 1, above 50 as 50, values in range pass through), and the rows
fetched under the clamped LIMIT never number more than 50. -/
theorem view_notices_clamp (c : Int) (rows : List NoticeRow) :
    viewNoticesCount c = max 1 (min 50 c)
    ∧ 1 ≤ viewNoticesCount c ∧ viewNoticesCount c ≤ 50
    ∧ (viewNoticesFetch c rows).length ≤ 50 := by
  have h1 : viewNoticesCount c = max 1 (min 50 c) := by
    unfold viewNoticesCount
    dsimp only
    split_ifs <;> omega
  have h2 : (viewNoticesCount c).toNat ≤ 50 := by
    rw [h1]; omega
  refine ⟨h1, by rw [h1]; omega, by rw [h1]; omega, ?_⟩
  unfold viewNoticesFetch
  have h3 := List.length_take ((viewNoticesCount c).toNat) rows
  omega

/-- C2 counterexample: a 302 redirect that carries no cookies at all is
reported as success by `login_jwc_rsa` whenever the follow-up `/admin/main`
probe answers 200 — not as a no-session error. -/
theorem login_success_without_cookies :
    (login_jwc_rsa ⟨302, [], true, "", 200⟩).success = true
    ∧ (login_jwc_rsa ⟨302, [], true, "", 200⟩).cookies = [] := by
  decide

/-- Key-cookie presence implies the jar is non-empty, so the source's
`cookies and any(...)` test reduces to the key-cookie test. -/
theorem nonempty_and_key_eq (cs : List (String × String)) :
    (!cs.isEmpty && hasKeySessionCookie cs) = hasKeySessionCookie cs := by
  cases cs <;> simp [hasKeySessionCookie]

/-- C2 (amended): login reports success only on a 302 (200 responses are
always failures); on a 302, the RSA path succeeds exactly when a key session
cookie (`username`, `puid`, `jw_uf`) is present or the `/admin/main` probe
answers 200 — only a 302 with no key cookie and a failed probe is a
no-session error; the direct path on a 302 succeeds exactly when the redirect
location contains "main.html" or "admin", without consulting cookies. -/
theorem login_success_characterization :
    (∀ e : RsaLoginEnv,
      (login_jwc_rsa e).success = true
        ↔ e.status = 302 ∧ (hasKeySessionCookie e.cookies = true ∨ e.probeStatus = 200))
    ∧ ∀ d : DirectLoginEnv,
      (login_jwc_direct d).success = true
        ↔ d.status = 302 ∧ (strContainsSub d.location "main.html" = true
            ∨ strContainsSub d.location "admin" = true) := by
  constructor
  · intro e
    unfold login_jwc_rsa
    rw [nonempty_and_key_eq]
    split_ifs <;> simp_all
  · intro d
    unfold login_jwc_direct
    split_ifs with h1 h2 <;> simp_all

/-- C3 counterexample: with `use_rsa_encryption` true and no fallback
configuration in existence, a failed RSA login POST (here a 500) makes
`login_jwc` silently POST the plaintext password via `login_jwc_direct` and
report plain success, with no degradation surfaced. -/
theorem login_plaintext_fallback_example :
    (login_jwc true true (fun s => "RSA:" ++ s) "hunter2"
        ⟨500, [], false, "", 0⟩ ⟨302, [], "/admin/main.html", ""⟩).2
      = ["RSA:hunter2", "hunter2"]
    ∧ "hunter2" ∈ (login_jwc true true (fun s => "RSA:" ++ s) "hunter2"
        ⟨500, [], false, "", 0⟩ ⟨302, [], "/admin/main.html", ""⟩).2
    ∧ (login_jwc true true (fun s => "RSA:" ++ s) "hunter2"
        ⟨500, [], false, "", 0⟩ ⟨302, [], "/admin/main.html", ""⟩).1
      = ⟨true, [], "登录成功"⟩ := by
  refine ⟨by decide, by decide, by decide⟩

/-- C3 (amended): with `use_rsa_encryption` true the encrypted credential is
POSTed first, but on any failure of that RSA attempt the flow unconditionally
falls back to the direct login and POSTs the plaintext password — no fallback
configuration gates it and the result carries no degradation marker;
moreover, when the `rsa` library is unavailable the "encrypted" value is
merely the base64 encoding of the plaintext. -/
theorem login_jwc_plaintext_fallback (rsaAvailable : Bool) (f : String → String)
    (pw : String) (eR : RsaLoginEnv) (eD : DirectLoginEnv)
    (hfail : (login_jwc_rsa eR).success = false) :
    (login_jwc true rsaAvailable f pw eR eD).2
        = [rsa_encrypt_password rsaAvailable f pw, pw]
    ∧ (rsaAvailable = false → rsa_encrypt_password rsaAvailable f pw = b64encode pw) := by
  constructor
  · unfold login_jwc
    cases hd : (login_jwc_direct eD).success <;> simp [hfail, hd]
  · intro hna
    simp [rsa_encrypt_password, hna]

/-- C3 witness: a concrete failed RSA attempt with the library unavailable
sends base64 of the plaintext and then the plaintext itself. -/
theorem login_jwc_plaintext_fallback_witness :
    (login_jwc true false (fun s => s) "pw123"
        ⟨403, [], false, "", 0⟩ ⟨200, [], "", "账号或密码错误"⟩).2
      = [rsa_encrypt_password false (fun s => s) "pw123", "pw123"]
    ∧ (false = false → rsa_encrypt_password false (fun s => s) "pw123"
        = b64encode "pw123") :=
  login_jwc_plaintext_fallback false (fun s => s) "pw123"
    ⟨403, [], false, "", 0⟩ ⟨200, [], "", "账号或密码错误"⟩ (by decide)

/-- C8 counterexample: marking the same notice notified a second time at a
later wall-clock instant refreshes `notified_at`, so the store is not left in
the same state as after a single mark. -/
theorem mark_notified_timestamp_counterexample :
    markNotified "2024-01-02 10:00:00" "n1"
        (markNotified "2024-01-01 09:00:00" "n1" [wNoticeRow])
      ≠ markNotified "2024-01-01 09:00:00" "n1" [wNoticeRow] := by
  decide

/-- C8 (amended): a second mark-notified is absorbed into one mark at the
second mark's timestamp — in particular with an equal timestamp the update is
fully idempotent — and after repeated marks the notice's `notified` flag is
true; the update never errors and rewrites no other row. -/
theorem mark_notified_absorbs (t1 t2 i : String) (db : List NoticeRow) :
    markNotified t2 i (markNotified t1 i db) = markNotified t2 i db
    ∧ markNotified t1 i (markNotified t1 i db) = markNotified t1 i db
    ∧ ∀ r ∈ markNotified t2 i (markNotified t1 i db), r.id = i → r.notified = true := by
  have habs : ∀ s1 s2 : String, markNotified s2 i (markNotified s1 i db) = markNotified s2 i db := by
    intro s1 s2
    unfold markNotified
    rw [List.map_map]
    apply List.map_congr_left
    intro r _
    by_cases h : r.id = i <;> simp [h]
  refine ⟨habs t1 t2, habs t1 t1, ?_⟩
  intro r hr hid
  rw [habs t1 t2] at hr
  unfold markNotified at hr
  obtain ⟨r0, _, rfl⟩ := List.mem_map.mp hr
  by_cases h : r0.id = i
  · simp [h]
  · simp [h] at hid ⊢

/-- C8 witness: concrete double mark over a one-row store. -/
theorem mark_notified_absorbs_witness :
    markNotified "t2" "n1" (markNotified "t1" "n1" [wNoticeRow])
        = markNotified "t2" "n1" [wNoticeRow]
    ∧ markNotified "t1" "n1" (markNotified "t1" "n1" [wNoticeRow])
        = markNotified "t1" "n1" [wNoticeRow]
    ∧ (⟨"n1", "s1", "t", "u", "2024-01-01", true, some "t2"⟩ : NoticeRow).notified = true := by
  have h := mark_notified_absorbs "t1" "t2" "n1" [wNoticeRow]
  exact ⟨h.1, h.2.1, h.2.2 ⟨"n1", "s1", "t", "u", "2024-01-01", true, some "t2"⟩
    (by decide) (by decide)⟩

/-- The notices table only ever grows by appended rows during a site check. -/
theorem check_site_notices_store_ext (cs : List NoticeCandidate) (db : List NoticeRow) :
    ∃ ex, (check_site_notices cs db).2 = db ++ ex := by
  induction cs generalizing db with
  | nil => exact ⟨[], by simp [check_site_notices]⟩
  | cons c rest ih =>
    cases h : noticeIdPresent db c.id with
    | true => simpa [check_site_notices, h] using ih db
    | false =>
      obtain ⟨ex, hex⟩ := ih (db ++ [insertNoticeRow c])
      exact ⟨insertNoticeRow c :: ex, by simp [check_site_notices, h, hex]⟩

/-- Id presence distributes over table append. -/
theorem noticeIdPresent_append (db ex : List NoticeRow) (i : String) :
    noticeIdPresent (db ++ ex) i = (noticeIdPresent db i || noticeIdPresent ex i) := by
  simp [noticeIdPresent]

/-- A row found in a table is still the first match after rows are appended. -/
theorem find_first_append (db ex : List NoticeRow) (p : NoticeRow → Bool)
    (h : (db.find? p).isSome = true) :
    (db ++ ex).find? p = db.find? p := by
  induction db with
  | nil => simp at h
  | cons a l ih =>
    by_cases hp : p a = true
    · rw [List.cons_append, List.find?_cons_of_pos _ hp, List.find?_cons_of_pos _ hp]
    · rw [List.find?_cons_of_neg _ hp] at h
      rw [List.cons_append, List.find?_cons_of_neg _ hp, List.find?_cons_of_neg _ hp]
      exact ih h

/-- Id presence is the same as the id lookup finding a row. -/
theorem noticeIdPresent_iff_find (db : List NoticeRow) (i : String) :
    noticeIdPresent db i = true ↔ ((db.find? (fun r => r.id = i)).isSome = true) := by
  simp [noticeIdPresent, List.find?_isSome]

/-- An id present before a site check stays present afterwards. -/
theorem check_site_notices_present_mono (cs : List NoticeCandidate)
    (db : List NoticeRow) (i : String) (h : noticeIdPresent db i = true) :
    noticeIdPresent (check_site_notices cs db).2 i = true := by
  obtain ⟨ex, hex⟩ := check_site_notices_store_ext cs db
  rw [hex, noticeIdPresent_append, h, Bool.true_or]

/-- After a site check every processed candidate's id is present. -/
theorem check_site_notices_mem_present (cs : List NoticeCandidate) (db : List NoticeRow) :
    ∀ c ∈ cs, noticeIdPresent (check_site_notices cs db).2 c.id = true := by
  induction cs generalizing db with
  | nil => intro c hc; cases hc
  | cons a rest ih =>
    intro c hc
    cases h : noticeIdPresent db a.id with
    | true =>
      simp only [check_site_notices, h]
      rcases List.mem_cons.mp hc with rfl | hc2
      · exact check_site_notices_present_mono rest db c.id h
      · exact ih db c hc2
    | false =>
      simp only [check_site_notices, h]
      rcases List.mem_cons.mp hc with rfl | hc2
      · apply check_site_notices_present_mono
        rw [noticeIdPresent_append]
        have : noticeIdPresent [insertNoticeRow c] c.id = true := by
          simp [noticeIdPresent, insertNoticeRow]
        rw [this, Bool.or_true]
      · exact ih (db ++ [insertNoticeRow a]) c hc2

/-- A check whose every candidate id is already stored inserts nothing. -/
theorem check_site_notices_rerun (cs : List NoticeCandidate) (db : List NoticeRow)
    (h : ∀ c ∈ cs, noticeIdPresent db c.id = true) :
    (check_site_notices cs db).1 = [] := by
  induction cs with
  | nil => simp [check_site_notices]
  | cons a rest ih =>
    have ha := h a (List.mem_cons_self a rest)
    simp only [check_site_notices, ha]
    exact ih fun c hc => h c (List.mem_cons_of_mem a hc)

/-- Counting form of the dedup property: inserted plus already-present
candidates sum to the stream's length, for pairwise-distinct candidate ids. -/
theorem check_site_notices_count (cs : List NoticeCandidate) (db : List NoticeRow)
    (h : (cs.map (fun c => c.id)).Nodup) :
    (check_site_notices cs db).1.length
      + (cs.filter (fun c => noticeIdPresent db c.id)).length = cs.length := by
  induction cs generalizing db with
  | nil => simp [check_site_notices]
  | cons a rest ih =>
    have hsplit : (∀ x ∈ rest, ¬x.id = a.id) ∧ (rest.map (fun c => c.id)).Nodup := by
      simpa using h
    have hnd := hsplit.2
    cases hpres : noticeIdPresent db a.id with
    | true =>
      have h2 := ih db hnd
      simp [check_site_notices, hpres, List.filter_cons]
      omega
    | false =>
      have hfe : rest.filter (fun c => noticeIdPresent (db ++ [insertNoticeRow a]) c.id)
          = rest.filter (fun c => noticeIdPresent db c.id) := by
        apply List.filter_congr
        intro x hx
        rw [noticeIdPresent_append]
        have hne : noticeIdPresent [insertNoticeRow a] x.id = false := by
          simp [noticeIdPresent, insertNoticeRow]
          exact fun hax => (hsplit.1 x hx) hax.symm
        rw [hne, Bool.or_false]
      have h2 := ih (db ++ [insertNoticeRow a]) hnd
      rw [hfe] at h2
      simp [check_site_notices, hpres, List.filter_cons]
      omega

/-- C5 (amended): over a stream of N candidates with pairwise-distinct ids of
which M are already stored, the check inserts exactly N−M rows; re-running
the same stream over the resulting table inserts zero; and the stored row of
any previously present id — its title and publish_date included — is exactly
the row stored before the check. -/
theorem check_site_notices_dedup (cs : List NoticeCandidate) (db : List NoticeRow)
    (h : (cs.map (fun c => c.id)).Nodup) :
    (check_site_notices cs db).1.length
        = cs.length - (cs.filter (fun c => noticeIdPresent db c.id)).length
    ∧ (check_site_notices cs (check_site_notices cs db).2).1 = []
    ∧ ∀ i, noticeIdPresent db i = true →
        (check_site_notices cs db).2.find? (fun r => r.id = i)
          = db.find? (fun r => r.id = i) := by
  refine ⟨?_, ?_, ?_⟩
  · have := check_site_notices_count cs db h
    omega
  · exact check_site_notices_rerun cs _ (check_site_notices_mem_present cs db)
  · intro i hi
    obtain ⟨ex, hex⟩ := check_site_notices_store_ext cs db
    rw [hex]
    exact find_first_append db ex _ ((noticeIdPresent_iff_find db i).mp hi)

/-- C5 witness: of two distinct candidates over a one-row table sharing the
first id, exactly one row is inserted, a rerun inserts none, and the stored
row of id "i1" keeps its original title and date. -/
theorem check_site_notices_dedup_witness :
    (check_site_notices wCandidates wNoticeDb).1.length
        = wCandidates.length
            - (wCandidates.filter (fun c => noticeIdPresent wNoticeDb c.id)).length
    ∧ (check_site_notices wCandidates (check_site_notices wCandidates wNoticeDb).2).1 = []
    ∧ (check_site_notices wCandidates wNoticeDb).2.find? (fun r => r.id = "i1")
        = wNoticeDb.find? (fun r => r.id = "i1") := by
  have h := check_site_notices_dedup wCandidates wNoticeDb (by decide)
  exact ⟨h.1, h.2.1, h.2.2 "i1" (by decide)⟩

/-- C5 counterexample: a stream repeating one fresh candidate twice (N = 2,
M = 0) inserts one row, not N − M = 2 — the claim's count fails when the
stream itself contains duplicate ids. -/
theorem check_site_notices_dup_counterexample :
    (check_site_notices [dupCandidate, dupCandidate] []).1.length
      ≠ [dupCandidate, dupCandidate].length
          - ([dupCandidate, dupCandidate].filter
              (fun c => noticeIdPresent [] c.id)).length := by
  decide

/-- Rows with equal UNIQUE five-tuples agree on the save-key test, since the
five-tuple contains the key columns. -/
theorem courseKey_eq_of_slotId (sid ay : String) (w : Int) (r c : CourseRow)
    (h : courseSlotId r = courseSlotId c) :
    courseKeyMatches sid ay w r = courseKeyMatches sid ay w c := by
  unfold courseSlotId at h
  simp only [Prod.mk.injEq] at h
  unfold courseKeyMatches
  rw [h.1, h.2.1, h.2.2.1]

/-- Between two rows that both carry the save key, a UNIQUE violation is
exactly a repeated (day_of_week, section_code) slot. -/
theorem slotId_eq_iff_slot (sid ay : String) (w : Int) (r c : CourseRow)
    (hr : courseKeyMatches sid ay w r = true)
    (hc : courseKeyMatches sid ay w c = true) :
    courseSlotId r = courseSlotId c ↔ courseSlot r = courseSlot c := by
  simp only [courseKeyMatches, Bool.and_eq_true, decide_eq_true_eq] at hr hc
  obtain ⟨⟨hr1, hr2⟩, hr3⟩ := hr
  obtain ⟨⟨hc1, hc2⟩, hc3⟩ := hc
  simp [courseSlotId, courseSlot, Prod.ext_iff, hr1, hr2, hr3, hc1, hc2, hc3]

/-- The insert loop appends all rows when the new rows carry the save key,
occupy pairwise-distinct slots, and no key-carrying row of the table state
shares a slot with them. -/
theorem insertCourseRows_success (sid ay : String) (w : Int) :
    ∀ (pending acc : List CourseRow),
      (∀ c ∈ pending, courseKeyMatches sid ay w c = true) →
      (pending.map courseSlot).Nodup →
      (∀ x ∈ pending, ∀ r ∈ acc,
        courseKeyMatches sid ay w r = true → ¬(courseSlot r = courseSlot x)) →
      insertCourseRows pending acc = some (acc ++ pending) := by
  intro pending
  induction pending with
  | nil =>
    intro acc _ _ _
    simp [insertCourseRows]
  | cons c rest ih =>
    intro acc hkey hnd hsep
    have hckey : courseKeyMatches sid ay w c = true := hkey c (List.mem_cons_self c rest)
    have hv : uniqueViolation acc c = false := by
      rw [uniqueViolation, List.any_eq_false]
      intro r hr
      simp only [decide_eq_true_eq]
      intro he
      have hkr : courseKeyMatches sid ay w r = true := by
        rw [courseKey_eq_of_slotId sid ay w r c he]
        exact hckey
      exact hsep c (List.mem_cons_self c rest) r hr hkr
        ((slotId_eq_iff_slot sid ay w r c hkr hckey).mp he)
    have hstep : insertCourseRows (c :: rest) acc = insertCourseRows rest (acc ++ [c]) := by
      simp [insertCourseRows, hv]
    have hnd2 : (courseSlot c ∉ rest.map courseSlot) ∧ (rest.map courseSlot).Nodup := by
      rw [List.map_cons, List.nodup_cons] at hnd
      exact hnd
    have hkey2 : ∀ x ∈ rest, courseKeyMatches sid ay w x = true :=
      fun x hx => hkey x (List.mem_cons_of_mem c hx)
    have hsep2 : ∀ x ∈ rest, ∀ r ∈ acc ++ [c],
        courseKeyMatches sid ay w r = true → ¬(courseSlot r = courseSlot x) := by
      intro x hx r hr hkr
      rcases List.mem_append.mp hr with hr1 | hr2
      · exact hsep x (List.mem_cons_of_mem c hx) r hr1 hkr
      · have hrc : r = c := by simpa using hr2
        subst hrc
        intro he
        apply hnd2.1
        rw [he]
        exact List.mem_map_of_mem courseSlot hx
    rw [hstep, ih (acc ++ [c]) hkey2 hnd2.2 hsep2]
    simp

/-- The insert loop aborts whenever some pending row repeats the UNIQUE
five-tuple of a table-state row or of another pending row. -/
theorem insertCourseRows_abort :
    ∀ (pending acc : List CourseRow),
      ((∃ x ∈ pending, ∃ r ∈ acc, courseSlotId r = courseSlotId x)
        ∨ ¬(pending.map courseSlotId).Nodup) →
      insertCourseRows pending acc = none := by
  intro pending
  induction pending with
  | nil =>
    intro acc h
    rcases h with ⟨x, hx, -⟩ | hnd
    · exact absurd hx (List.not_mem_nil x)
    · simp at hnd
  | cons c rest ih =>
    intro acc h
    by_cases hv : uniqueViolation acc c = true
    · simp [insertCourseRows, hv]
    · have hv' : ∀ r ∈ acc, ¬(courseSlotId r = courseSlotId c) := by
        intro r hr he
        apply hv
        rw [uniqueViolation, List.any_eq_true]
        exact ⟨r, hr, by simp [he]⟩
      have hvf : uniqueViolation acc c = false := by
        simpa using hv
      have hstep : insertCourseRows (c :: rest) acc = insertCourseRows rest (acc ++ [c]) := by
        simp [insertCourseRows, hvf]
      rw [hstep]
      apply ih
      rcases h with ⟨x, hx, r, hr, he⟩ | hnd
      · rcases List.mem_cons.mp hx with rfl | hx2
        · exact absurd he (hv' r hr)
        · exact Or.inl ⟨x, hx2, r, List.mem_append_left _ hr, he⟩
      · rw [List.map_cons, List.nodup_cons, not_and_or] at hnd
        rcases hnd with h1 | h2
        · rw [not_not] at h1
          obtain ⟨x, hx, he⟩ := List.mem_map.mp h1
          exact Or.inl ⟨x, hx, c, List.mem_append_right _ (List.mem_singleton.mpr rfl), he.symm⟩
        · exact Or.inr h2

/-- C7 counterexample: a fetched week for the saved key that repeats one
(day, section) slot violates the UNIQUE constraint; the caught
IntegrityError skips the commit, the transaction rolls back, and the stored
rows for the key are the old ones — not the new records. -/
theorem save_courses_duplicate_counterexample :
    save_courses_to_db wCourseDb wCourseDup "stu1" "2024-2025-1" 5 = wCourseDb
    ∧ (save_courses_to_db wCourseDb wCourseDup "stu1" "2024-2025-1" 5).filter
        (courseKeyMatches "stu1" "2024-2025-1" 5) ≠ wCourseDup := by
  refine ⟨by decide, by decide⟩

/-- C7 (amended): when the new records all carry the saved key, the save
replaces exactly the stored rows of that (student_id, academic_year, week)
key with the new records — stale slots removed, every other key's rows
untouched — provided the new records occupy pairwise-distinct
(day_of_week, section_code) slots; if a slot repeats, the INSERT violates
the table's UNIQUE constraint, the caught IntegrityError skips the commit
and the rolled-back store is left entirely unchanged. -/
theorem save_courses_replaces (db courses : List CourseRow) (sid ay : String) (w : Int)
    (hkey : ∀ c ∈ courses, courseKeyMatches sid ay w c = true) :
    ((courses.map courseSlot).Nodup →
      (save_courses_to_db db courses sid ay w).filter (courseKeyMatches sid ay w) = courses
      ∧ (save_courses_to_db db courses sid ay w).filter
            (fun r => !courseKeyMatches sid ay w r)
          = db.filter (fun r => !courseKeyMatches sid ay w r))
    ∧ (¬(courses.map courseSlot).Nodup → save_courses_to_db db courses sid ay w = db) := by
  constructor
  · intro hnd
    have hins : insertCourseRows courses (db.filter (fun r => !courseKeyMatches sid ay w r))
        = some (db.filter (fun r => !courseKeyMatches sid ay w r) ++ courses) := by
      apply insertCourseRows_success sid ay w courses _ hkey hnd
      intro x hx r hr hkr
      have hneg := (List.mem_filter.mp hr).2
      simp [hkr] at hneg
    have hsave : save_courses_to_db db courses sid ay w
        = db.filter (fun r => !courseKeyMatches sid ay w r) ++ courses := by
      unfold save_courses_to_db
      rw [hins]
    rw [hsave]
    constructor
    · rw [List.filter_append]
      have h1 : (db.filter (fun r => !courseKeyMatches sid ay w r)).filter
          (courseKeyMatches sid ay w) = [] := by
        rw [List.filter_eq_nil_iff]
        intro a ha
        have := (List.mem_filter.mp ha).2
        simp_all
      have h2 : courses.filter (courseKeyMatches sid ay w) = courses :=
        List.filter_eq_self.mpr hkey
      rw [h1, h2, List.nil_append]
    · rw [List.filter_append]
      have h1 : (db.filter (fun r => !courseKeyMatches sid ay w r)).filter
            (fun r => !courseKeyMatches sid ay w r)
          = db.filter (fun r => !courseKeyMatches sid ay w r) := by
        apply List.filter_eq_self.mpr
        intro a ha
        exact (List.mem_filter.mp ha).2
      have h2 : courses.filter (fun r => !courseKeyMatches sid ay w r) = [] := by
        rw [List.filter_eq_nil_iff]
        intro a ha
        simp [hkey a ha]
      rw [h1, h2, List.append_nil]
  · intro hnd
    have habort : insertCourseRows courses (db.filter (fun r => !courseKeyMatches sid ay w r))
        = none := by
      apply insertCourseRows_abort
      refine Or.inr fun hnd' => hnd ?_
      have hmap : courses.map courseSlotId
          = (courses.map courseSlot).map (fun s => (sid, ay, w, s.1, s.2)) := by
        rw [List.map_map]
        apply List.map_congr_left
        intro c hc
        have hc' := hkey c hc
        simp only [courseKeyMatches, Bool.and_eq_true, decide_eq_true_eq] at hc'
        obtain ⟨⟨h1, h2⟩, h3⟩ := hc'
        simp [courseSlotId, courseSlot, Function.comp, h1, h2, h3]
      rw [hmap] at hnd'
      exact hnd'.of_map
    unfold save_courses_to_db
    rw [habort]

/-- C7 witness: a slot-distinct replacement for stu1's week 5 leaves exactly
the new record under the key and the other two rows untouched, while the
duplicate-slot replacement rolls back and leaves the table unchanged. -/
theorem save_courses_replaces_witness :
    ((save_courses_to_db wCourseDb wCourseNew "stu1" "2024-2025-1" 5).filter
        (courseKeyMatches "stu1" "2024-2025-1" 5) = wCourseNew
      ∧ (save_courses_to_db wCourseDb wCourseNew "stu1" "2024-2025-1" 5).filter
            (fun r => !courseKeyMatches "stu1" "2024-2025-1" 5 r)
          = wCourseDb.filter (fun r => !courseKeyMatches "stu1" "2024-2025-1" 5 r))
    ∧ save_courses_to_db wCourseDb wCourseDup "stu1" "2024-2025-1" 5 = wCourseDb := by
  refine ⟨(save_courses_replaces wCourseDb wCourseNew "stu1" "2024-2025-1" 5 (by decide)).1
      (by decide),
    (save_courses_replaces wCourseDb wCourseDup "stu1" "2024-2025-1" 5 (by decide)).2
      (by decide)⟩

end NimtMonitor
